import Mathlib

/-
Verification of the protosnirk front-end: the name-resolution pass
(src/check/scope/name_identifier.rs), the expression type checker
(src/check/types/expr_checker.rs) and the pipeline driver
(src/pipeline/mod.rs), as a shallow embedding.

Components that the source tree under verification only declares or calls
(ScopedId, ScopeBuilder, the item identification pass, TypeScopeBuilder,
TypeConcretifier) are modelled from the specification; their doc comments
say so explicitly.
-/

set_option maxHeartbeats 1000000

namespace Protosnirk

/-- Modelled from the spec: `ScopedId` (declared in the `parse` module, not under
src/) is an ordered sequence of non-negative integers, a path through nested
scopes, with the innermost level last.  The all-zero single-level id is the
reserved "unassigned" sentinel. -/
abbrev ScopedId := List Nat

/-- Modelled from the spec: the default (sentinel, "unassigned") `ScopedId`. -/
def ScopedId.default : ScopedId := [0]

/-- Modelled from the spec: `increment()` bumps the innermost (last) level. -/
def ScopedId.increment : ScopedId → ScopedId
  | [] => []
  | [k] => [k + 1]
  | k :: l :: rest => k :: ScopedId.increment (l :: rest)

/-- Modelled from the spec: `push()` appends a new 0-valued level (entering a
scope). -/
def ScopedId.push (id : ScopedId) : ScopedId := id ++ [0]

/-- Modelled from the spec: `pop()` removes the innermost level (leaving a
scope). -/
def ScopedId.pop (id : ScopedId) : ScopedId := List.dropLast id

/-- Modelled from the spec: `ScopeBuilder` (declared in `check::scope`, not under
src/) is a stack of per-scope symbol tables, innermost scope first. -/
abbrev ScopeBuilder := List (List (String × ScopedId))

/-- Modelled from the spec: `new_scope()` pushes an empty table. -/
def ScopeBuilder.new_scope (b : ScopeBuilder) : ScopeBuilder := [] :: b

/-- Modelled from the spec: `pop()` discards the innermost table. -/
def ScopeBuilder.pop (b : ScopeBuilder) : ScopeBuilder := List.tail b

/-- Modelled from the spec: `define_local(name, id)` inserts into the innermost
table. -/
def ScopeBuilder.define_local (b : ScopeBuilder) (name : String) (id : ScopedId) :
    ScopeBuilder :=
  match b with
  | [] => [[(name, id)]]
  | scope :: rest => ((name, id) :: scope) :: rest

/-- Modelled from the spec: `get(name)` performs innermost-to-outermost lookup
and returns the nearest binding, or none if the name is undeclared anywhere. -/
def ScopeBuilder.get (b : ScopeBuilder) (name : String) : Option ScopedId :=
  match b with
  | [] => none
  | scope :: rest =>
    match List.lookup name scope with
    | some id => some id
    | none => ScopeBuilder.get rest name

/-- An identifier AST node: its source name and the mutable `ScopedId` slot,
initialized to the unassigned sentinel. -/
structure Identifier where
  name : String
  id : ScopedId
deriving DecidableEq, Repr

/-- The operator enumeration of `ast::Operator` as matched by the expression
type checker. -/
inductive Operator where
  | Equality
  | NonEquality
  | LessThan
  | GreaterThan
  | GreaterThanEquals
  | LessThanEquals
  | Addition
  | Subtraction
  | Multiplication
  | Division
  | Modulus
  | Custom
deriving DecidableEq, Repr

/-- `LiteralValue` from the source: Bool, Float or Unit.  The numeric payload is
never inspected by the checkers, so an integer stands in for the f64 payload. -/
inductive LiteralValue where
  | bool (b : Bool)
  | float (f : Int)
  | unitLit
deriving DecidableEq, Repr

mutual
/-- Expression AST, the shapes traversed by NameIdentifier and
ExprTypeChecker. -/
inductive Expr where
  | lit (value : LiteralValue)
  | varRef (ident : Identifier)
  | unaryOp (op : Operator) (inner : Expr)
  | binaryOp (op : Operator) (left : Expr) (right : Expr)
  | ifExpr (token : String) (condition : Expr) (trueExpr : Expr) (elseExpr : Expr)
  | assignment (lvalue : Identifier) (rvalue : Expr)
  | fnCall (ident : Identifier) (args : FnCallArgs)

/-- `FnCallArgs`: a single positional expression, or a named argument list. -/
inductive FnCallArgs where
  | singleExpr (e : Expr)
  | argumentList (args : CallArgList)

/-- List of call arguments (a specialized list so the AST stays a plain mutual
inductive family). -/
inductive CallArgList where
  | nil
  | cons (head : CallArg) (tail : CallArgList)

/-- A call argument: its name identifier and its value. -/
inductive CallArg where
  | mk (name : Identifier) (value : CallArgValue)

/-- `CallArgumentValue`: an explicit expression, or the implicit-name shorthand
that resolves as a local variable reference in the caller's scope. -/
inductive CallArgValue where
  | expression (e : Expr)
  | localVar (var : Identifier)
end

mutual
/-- Statement AST. -/
inductive Stmt where
  | declaration (decl : Declaration)
  | expression (e : Expr)
  | block (b : Block)

/-- A `let`-style declaration: the declared identifier and its initializer. -/
inductive Declaration where
  | mk (ident : Identifier) (value : Expr)

/-- A block: a sequence of statements. -/
inductive Block where
  | mk (stmts : StmtList)

/-- List of statements (specialized list for the mutual family). -/
inductive StmtList where
  | nil
  | cons (head : Stmt) (tail : StmtList)
end

def Declaration.ident : Declaration → Identifier
  | .mk i _ => i

def Declaration.value : Declaration → Expr
  | .mk _ v => v

def Block.stmts : Block → StmtList
  | .mk s => s

/-- A function declaration item: name identifier, parameters and body block. -/
structure FnDeclaration where
  ident : Identifier
  args : List Identifier
  block : Block

/-- Top-level items of a compilation unit. -/
inductive Item where
  | fnDecl (f : FnDeclaration)

def Item.ident : Item → Identifier
  | .fnDecl f => f.ident

/-- A compilation unit: the list of top-level items. -/
structure Unit where
  items : List Item

/-- `CheckerError::new(token, references, text)`. -/
structure CheckerError where
  token : String
  references : List String
  text : String
deriving DecidableEq, Repr

/-- The state threaded through the `NameIdentifier` traversal: the cursor
(`current_id`), the scope builder, the error collector, and — as a proof
observer — the ordered trace of every `ScopedId` snapshotted (frozen) onto a
declaration node during the traversal. -/
structure NIState where
  currentId : ScopedId
  builder : ScopeBuilder
  errors : List CheckerError
  assigned : List ScopedId
deriving DecidableEq, Repr

/-- `NameIdentifier::check_var_ref`: look the name up (innermost-to-outermost);
if found attach the resolved id to the reference node, otherwise leave it
unresolved and record nothing. -/
def check_var_ref (S : NIState) (var_ref : Identifier) : NIState × Identifier :=
  match ScopeBuilder.get S.builder var_ref.name with
  | some index => (S, { var_ref with id := index })
  | none => (S, var_ref)

mutual
/-- The expression dispatch of the `ASTVisitor`: recurse into subexpressions,
delegating variable references and function calls to their checkers. -/
def check_expression (S : NIState) : Expr → NIState × Expr
  | .lit v => (S, .lit v)
  | .varRef ident =>
    let r := check_var_ref S ident
    (r.1, .varRef r.2)
  | .unaryOp op inner =>
    let r := check_expression S inner
    (r.1, .unaryOp op r.2)
  | .binaryOp op left right =>
    let r1 := check_expression S left
    let r2 := check_expression r1.1 right
    (r2.1, .binaryOp op r1.2 r2.2)
  | .ifExpr tok c t e =>
    let r1 := check_expression S c
    let r2 := check_expression r1.1 t
    let r3 := check_expression r2.1 e
    (r3.1, .ifExpr tok r1.2 r2.2 r3.2)
  | .assignment lv rv =>
    let r1 := check_var_ref S lv
    let r2 := check_expression r1.1 rv
    (r2.1, .assignment r1.2 r2.2)
  | .fnCall ident args => check_fn_call S ident args

/-- `NameIdentifier::check_fn_call`: if the callee name resolves, attach its id
to the call-site identifier and recurse into the arguments; otherwise record an
"Unknown function" error and do not check the arguments.  (The source skeleton
names the builder field `table_builder` here; it is the same scope builder.) -/
def check_fn_call (S : NIState) (ident : Identifier) (args : FnCallArgs) :
    NIState × Expr :=
  match ScopeBuilder.get S.builder ident.name with
  | some fn_id =>
    match args with
    | .singleExpr e =>
      let r := check_expression S e
      (r.1, .fnCall { ident with id := fn_id } (.singleExpr r.2))
    | .argumentList l =>
      let r := check_call_args S l
      (r.1, .fnCall { ident with id := fn_id } (.argumentList r.2))
  | none =>
    ({ S with errors := S.errors ++
        [⟨ident.name, [], "Unknown function " ++ ident.name⟩] },
     .fnCall ident args)

def check_call_args (S : NIState) : CallArgList → NIState × CallArgList
  | .nil => (S, .nil)
  | .cons a rest =>
    let r1 := check_call_arg S a
    let r2 := check_call_args r1.1 rest
    (r2.1, .cons r1.2 r2.2)

/-- One call argument: check its expression if it carries one, otherwise
resolve the implicit name as a variable reference in the caller's scope. -/
def check_call_arg (S : NIState) : CallArg → NIState × CallArg
  | .mk name (.expression e) =>
    let r := check_expression S e
    (r.1, .mk name (.expression r.2))
  | .mk name (.localVar v) =>
    let r := check_var_ref S v
    (r.1, .mk name (.localVar r.2))
end

mutual
/-- Statement dispatch of the `ASTVisitor`. -/
def check_statement (S : NIState) : Stmt → NIState × Stmt
  | .declaration d =>
    let r := check_declaration S d
    (r.1, .declaration r.2)
  | .expression e =>
    let r := check_expression S e
    (r.1, .expression r.2)
  | .block b =>
    let r := check_block S b
    (r.1, .block r.2)

/-- `NameIdentifier::check_declaration`: resolve the initializer first (so the
new name is not visible to it), then check for an existing binding; an existing
binding means a "is already declared" error and no id is assigned.  Otherwise
snapshot the cursor as the new binding's id and increment the cursor.  Freezing
the id onto the node and registering the binding in the scope table are
modelled from the spec (the identification layer performs them; the skeleton's
`check_declaration` does not show them as a separate step). -/
def check_declaration (S : NIState) : Declaration → NIState × Declaration
  | .mk ident value =>
    let r0 := check_expression S value
    match ScopeBuilder.get r0.1.builder ident.name with
    | some _ =>
      ({ r0.1 with errors := r0.1.errors ++
          [⟨ident.name, [], "Variable " ++ ident.name ++ " is already declared"⟩] },
       .mk ident r0.2)
    | none =>
      let decl_id := r0.1.currentId
      ({ r0.1 with
          currentId := ScopedId.increment r0.1.currentId,
          builder := ScopeBuilder.define_local r0.1.builder ident.name decl_id,
          assigned := r0.1.assigned ++ [decl_id] },
       .mk { ident with id := decl_id } r0.2)

/-- `NameIdentifier::check_block`: push cursor and scope, check the statements,
pop the scope, then pop-and-increment the cursor so ids generated after the
block do not collide with ids generated inside it. -/
def check_block (S : NIState) : Block → NIState × Block
  | .mk stmts =>
    let S1 := { S with
        currentId := ScopedId.push S.currentId,
        builder := ScopeBuilder.new_scope S.builder }
    let r := check_stmt_list S1 stmts
    ({ r.1 with
        builder := ScopeBuilder.pop r.1.builder,
        currentId := ScopedId.increment (ScopedId.pop r.1.currentId) },
     .mk r.2)

def check_stmt_list (S : NIState) : StmtList → NIState × StmtList
  | .nil => (S, .nil)
  | .cons st rest =>
    let r1 := check_statement S st
    let r2 := check_stmt_list r1.1 rest
    (r2.1, .cons r1.2 r2.2)
end

/-- The parameter loop of `NameIdentifier::check_fn_declaration`: for each
parameter, look the name up; if found, record an "Argument ... is already
declared" error and assign no id; otherwise snapshot the cursor as the
parameter's id, increment the cursor, and define the parameter in the scope
table. -/
def check_params (S : NIState) : List Identifier → NIState × List Identifier
  | [] => (S, [])
  | p :: rest =>
    match ScopeBuilder.get S.builder p.name with
    | some _ =>
      let S1 := { S with errors := S.errors ++
          [⟨p.name, [], "Argument " ++ p.name ++ " is already declared"⟩] }
      let r := check_params S1 rest
      (r.1, p :: r.2)
    | none =>
      let param_id := S.currentId
      let S1 := { S with
          currentId := ScopedId.increment S.currentId,
          builder := ScopeBuilder.define_local S.builder p.name param_id,
          assigned := S.assigned ++ [param_id] }
      let r := check_params S1 rest
      (r.1, { p with id := param_id } :: r.2)

/-- `NameIdentifier::check_fn_declaration`: if the function's identifier still
carries the default id it was a duplicate flagged upstream — skip it entirely.
Otherwise adopt the function's pre-assigned id as the cursor, push a cursor
level and a scope, check the parameters, then check the body's statements
directly in the same scope (no nested block scope, and no cleanup of the
cursor or the scope afterwards). -/
def check_fn_declaration (S : NIState) (fn_decl : FnDeclaration) :
    NIState × FnDeclaration :=
  if fn_decl.ident.id = ScopedId.default then (S, fn_decl)
  else
    let S1 := { S with
        currentId := ScopedId.push fn_decl.ident.id,
        builder := ScopeBuilder.new_scope S.builder }
    let rp := check_params S1 fn_decl.args
    let rs := check_stmt_list rp.1 (Block.stmts fn_decl.block)
    (rs.1, { fn_decl with args := rp.2, block := .mk rs.2 })

/-- Modelled from the spec: the first pass over items (the `ItemChecker` /
`first_check_item`, a stub in the source skeleton) assigns each top-level
item's identifier a fresh snapshot of the cursor, increments the cursor, and
defines the item's name in the enclosing scope so calls can resolve it. -/
def first_pass_items (S : NIState) : List Item → NIState × List Item
  | [] => (S, [])
  | .fnDecl f :: rest =>
    let fn_id := S.currentId
    let S1 := { S with
        currentId := ScopedId.increment S.currentId,
        builder := ScopeBuilder.define_local S.builder f.ident.name fn_id,
        assigned := S.assigned ++ [fn_id] }
    let r := first_pass_items S1 rest
    (r.1, .fnDecl { f with ident := { f.ident with id := fn_id } } :: r.2)

def check_item (S : NIState) : Item → NIState × Item
  | .fnDecl f =>
    let r := check_fn_declaration S f
    (r.1, .fnDecl r.2)

def check_items (S : NIState) : List Item → NIState × List Item
  | [] => (S, [])
  | it :: rest =>
    let r1 := check_item S it
    let r2 := check_items r1.1 rest
    (r2.1, r1.2 :: r2.2)

/-- `NameIdentifier::check_unit`: increment then push the cursor (so the first
index of an ident's id is never 0), run the item first pass (modelled from the
spec; the skeleton's `first_check_item` is an empty stub), check each item,
then pop the cursor. -/
def check_unit (S : NIState) (unit : Unit) : NIState × Unit :=
  let S1 := { S with currentId := ScopedId.push (ScopedId.increment S.currentId) }
  let rf := first_pass_items S1 unit.items
  let rc := check_items rf.1 rf.2
  ({ rc.1 with currentId := ScopedId.pop rc.1.currentId }, ⟨rc.2⟩)

/-- `NameIdentifier::new`: the cursor starts at the default id; a fresh builder
has a single (global) empty scope and the error collector is empty. -/
def initial_state : NIState :=
  { currentId := ScopedId.default, builder := [[]], errors := [], assigned := [] }

/-- Run the name-resolution pass on a unit from a fresh `NameIdentifier`. -/
def name_identify_unit (unit : Unit) : NIState × Unit :=
  check_unit initial_state unit

/-- A type-variable node index (`TypeId` in the source).  The default (zero)
value is the "no type yet" sentinel; allocated ids start at 1. -/
abbrev TypeId := Nat

/-- The sentinel "no type" id. -/
def TypeId.default : TypeId := 0

/-- The primitive types the source seeds: `bool`, the numeric type, and the
unit ("unary") type. -/
inductive Primitive where
  | Bool
  | Int
  | Unary
deriving DecidableEq, Repr

/-- `ConcreteType`: the claims only exercise the primitive variant. -/
inductive ConcreteType where
  | Primitive (p : Primitive)
deriving DecidableEq, Repr

/-- `InferredType`: the right side of a type equation — a known concrete type,
a reference to another type variable, or a function shape. -/
inductive InferredType where
  | Known (t : ConcreteType)
  | Variable (id : TypeId)
  | Fn (params : List (String × InferredType)) (returnType : InferredType)

/-- A type equation `lhs = rhs`. -/
structure TypeEquation where
  lhs : TypeId
  rhs : InferredType

/-- `InferenceSource`: diagnostic-only justification tags attached to nodes. -/
inductive InferenceSource where
  | FunctionSignature (ident : Identifier)
  | FnParameter (ident : Identifier)
  | IfConditionalBool (token : String)
  | IfBranchesSame (token : String)
  | NumericOperator
  | BooleanOperator
  | EqualityOperator
  | Assignment
  | Declaration (ident : Identifier)
  | ExplicitDecl (ident : Identifier)
  | OfLiteral (lit : LiteralValue)
  | CallArgument (ident : Identifier)
  | CallReturnType (ident : Identifier)
  | ExplicitReturn (token : String)

/-- The state threaded through the `ExprTypeChecker` traversal: the emitted
equations and sources (the inference graph), the `TypeScopeBuilder` data
(binding-to-node map and fresh-node counter — modelled from the spec, the
builder is not under src/), the `var_type_id` register holding the node of the
most recently visited expression, the error collector, and a flag recording
that an `unreachable` internal-consistency guard fired. -/
structure TCState where
  equations : List TypeEquation
  sources : List (TypeId × InferenceSource)
  tsMap : List (ScopedId × TypeId)
  freshCounter : TypeId
  varTypeId : TypeId
  errors : List CheckerError
  internalError : Bool

/-- `add_equation`: append a type equation to the graph. -/
def TCState.add_equation (S : TCState) (eq : TypeEquation) : TCState :=
  { S with equations := S.equations ++ [eq] }

/-- `add_source`: append a justification tag for a node. -/
def TCState.add_source (S : TCState) (id : TypeId) (src : InferenceSource) : TCState :=
  { S with sources := S.sources ++ [(id, src)] }

/-- Modelled from the spec: `TypeScopeBuilder::fresh_id` allocates an anonymous
type-variable node from a monotonically increasing counter. -/
def TCState.fresh_id (S : TCState) : TCState × TypeId :=
  ({ S with freshCounter := S.freshCounter + 1 }, S.freshCounter)

/-- Modelled from the spec: `TypeScopeBuilder::get_id` returns (allocating if
absent) the type-variable node for a binding's `ScopedId`. -/
def TCState.get_id (S : TCState) (sid : ScopedId) : TCState × TypeId :=
  match List.lookup sid S.tsMap with
  | some t => (S, t)
  | none =>
    ({ S with tsMap := S.tsMap ++ [(sid, S.freshCounter)],
              freshCounter := S.freshCounter + 1 },
     S.freshCounter)

/-- `visit_var_ref`: if the identifier never received a `ScopedId`, return
immediately; otherwise load its type node and leave it in `var_type_id`. -/
def visit_var_ref (S : TCState) (ident : Identifier) : TCState :=
  if ident.id = ScopedId.default then S
  else
    let r := S.get_id ident.id
    { r.1 with varTypeId := r.2 }

/-- `visit_literal_expr`: allocate a fresh node and equate it with the
literal's primitive type (Float literals use the numeric primitive). -/
def visit_literal_expr (S : TCState) (value : LiteralValue) : TCState :=
  let r := S.fresh_id
  let S1 :=
    match value with
    | .bool _ => r.1.add_equation ⟨r.2, .Known (.Primitive .Bool)⟩
    | .float _ => r.1.add_equation ⟨r.2, .Known (.Primitive .Int)⟩
    | .unitLit => r.1.add_equation ⟨r.2, .Known (.Primitive .Unary)⟩
  { (S1.add_source r.2 (.OfLiteral value)) with varTypeId := r.2 }

mutual
/-- The expression dispatch of `ExprTypeChecker` (the `ExpressionVisitor`
impl).  The traversal also writes each variable reference's type id back onto
the node; no claim observes that slot, so only the checker state is
threaded. -/
def visit_expression (S : TCState) : Expr → TCState
  | .lit v => visit_literal_expr S v
  | .varRef ident => visit_var_ref S ident
  | .unaryOp op inner => visit_unary_op S op inner
  | .binaryOp op left right => visit_binary_op S op left right
  | .ifExpr tok c t e => visit_if_expr S tok c t e
  | .assignment lv rv => visit_assignment S lv rv
  | .fnCall ident args => visit_fn_call S ident args
termination_by e => 2 * sizeOf e

/-- `visit_if_expr`: clear `var_type_id`, visit the condition and equate it
with bool (source: if-conditional-bool), visit the true then the else branch,
equate the branches (source: if-branches-same on both). -/
def visit_if_expr (S : TCState) (tok : String) (c t e : Expr) : TCState :=
  let S0 := { S with varTypeId := TypeId.default }
  let S1 := visit_expression S0 c
  let cond_ty := S1.varTypeId
  let S2 := (S1.add_equation ⟨cond_ty, .Known (.Primitive .Bool)⟩).add_source
      cond_ty (.IfConditionalBool tok)
  let S3 := visit_expression S2 t
  let left_ty := S3.varTypeId
  let S4 := visit_expression S3 e
  let right_ty := S4.varTypeId
  ((S4.add_equation ⟨left_ty, .Variable right_ty⟩).add_source
      left_ty (.IfBranchesSame tok)).add_source right_ty (.IfBranchesSame tok)
termination_by 2 * (sizeOf c + sizeOf t + sizeOf e) + 1

/-- `visit_unary_op`: for unary plus/minus, the operand and a fresh result
node are both numeric; any other operator in this position is the
`unreachable` internal-consistency failure. -/
def visit_unary_op (S : TCState) (op : Operator) (inner : Expr) : TCState :=
  match op with
  | .Subtraction | .Addition =>
    let S1 := visit_expression S inner
    let inner_ty := S1.varTypeId
    let S2 := (S1.add_equation ⟨inner_ty, .Known (.Primitive .Int)⟩).add_source
        inner_ty .NumericOperator
    let r := S2.fresh_id
    let S3 := (r.1.add_equation ⟨r.2, .Known (.Primitive .Int)⟩).add_source
        r.2 .NumericOperator
    { S3 with varTypeId := r.2 }
  | _ => { S with internalError := true }
termination_by 2 * sizeOf inner + 1

/-- `visit_binary_op`: visit both operands, then emit the operator class's
equations.  Equality operators equate the operands both ways and give the
fresh result node the numeric primitive (bool-as-int in the source); ordering
comparisons make both operands numeric and the fresh result bool; arithmetic
makes operands and the fresh result numeric; the `Custom` placeholder is the
`unreachable` internal-consistency failure. -/
def visit_binary_op (S : TCState) (op : Operator) (left right : Expr) : TCState :=
  let S1 := visit_expression S left
  let left_ty := S1.varTypeId
  let S2 := visit_expression S1 right
  let right_ty := S2.varTypeId
  match op with
  | .Equality | .NonEquality =>
    let S3 := ((S2.add_equation ⟨left_ty, .Variable right_ty⟩).add_source
        left_ty .EqualityOperator).add_equation ⟨right_ty, .Variable left_ty⟩
    let S4 := S3.add_source right_ty .EqualityOperator
    let r := S4.fresh_id
    let S5 := (r.1.add_equation ⟨r.2, .Known (.Primitive .Int)⟩).add_source
        r.2 .EqualityOperator
    { S5 with varTypeId := r.2 }
  | .LessThan | .GreaterThan | .GreaterThanEquals | .LessThanEquals =>
    let S3 := ((S2.add_equation ⟨left_ty, .Known (.Primitive .Int)⟩).add_source
        left_ty .NumericOperator).add_equation ⟨right_ty, .Known (.Primitive .Int)⟩
    let S4 := S3.add_source right_ty .NumericOperator
    let r := S4.fresh_id
    let S5 := (r.1.add_equation ⟨r.2, .Known (.Primitive .Bool)⟩).add_source
        r.2 .BooleanOperator
    { S5 with varTypeId := r.2 }
  | .Addition | .Subtraction | .Multiplication | .Division | .Modulus =>
    let S3 := ((S2.add_equation ⟨left_ty, .Known (.Primitive .Int)⟩).add_source
        left_ty .NumericOperator).add_equation ⟨right_ty, .Known (.Primitive .Int)⟩
    let S4 := S3.add_source right_ty .NumericOperator
    let r := S4.fresh_id
    let S5 := (r.1.add_equation ⟨r.2, .Known (.Primitive .Int)⟩).add_source
        r.2 .NumericOperator
    { S5 with varTypeId := r.2 }
  | _ => { S2 with internalError := true }
termination_by 2 * (sizeOf left + sizeOf right) + 1

/-- `visit_assignment`: skip when the lvalue never resolved; otherwise equate
the lvalue's node with the rvalue's node (source: assignment) and reset
`var_type_id` (assignments produce no value). -/
def visit_assignment (S : TCState) (lvalue : Identifier) (rvalue : Expr) : TCState :=
  if lvalue.id = ScopedId.default then S
  else
    let r := S.get_id lvalue.id
    let lvalue_type := r.2
    let S1 := visit_expression r.1 rvalue
    let rvalue_type := S1.varTypeId
    let S2 := (S1.add_equation ⟨lvalue_type, .Variable rvalue_type⟩).add_source
        lvalue_type .Assignment
    { S2 with varTypeId := TypeId.default }
termination_by 2 * sizeOf rvalue + 1

/-- `visit_fn_call`: if the call-site identifier never received a `ScopedId`,
return immediately.  Otherwise allocate the fresh result node, visit the
arguments (tagging each as a call argument), and equate the callee's node with
the function shape built from the arguments and the result node. -/
def visit_fn_call (S : TCState) (ident : Identifier) (args : FnCallArgs) : TCState :=
  if ident.id = ScopedId.default then S
  else
    let r0 := S.fresh_id
    let result_id := r0.2
    let rargs :=
      match args with
      | .singleExpr call_expr =>
        let S1 := visit_expression r0.1 call_expr
        let arg_type := S1.varTypeId
        let S2 := S1.add_source arg_type (.CallArgument ident)
        (S2, [("", InferredType.Variable arg_type)])
      | .argumentList l => visit_call_args r0.1 ident l
    let rfn := rargs.1.get_id ident.id
    let S3 := (rfn.1.add_equation
        ⟨rfn.2, .Fn rargs.2 (.Variable result_id)⟩).add_source
        result_id (.CallReturnType ident)
    { S3 with varTypeId := result_id }
termination_by 2 * sizeOf args + 1

/-- The named-argument loop of `visit_fn_call`: visit each argument's
expression (or resolve the implicit local variable), tag it as a call
argument, and collect the parameter-name-to-node map. -/
def visit_call_args (S : TCState) (ident : Identifier) :
    CallArgList → TCState × List (String × InferredType)
  | .nil => (S, [])
  | .cons (.mk name value) rest =>
    let r1 :=
      match value with
      | .expression e => visit_expression S e
      | .localVar v => visit_var_ref S v
    let arg_id := r1.varTypeId
    let S2 := r1.add_source arg_id (.CallArgument ident)
    let r2 := visit_call_args S2 ident rest
    (r2.1, (name.name, InferredType.Variable arg_id) :: r2.2)
termination_by l => 2 * sizeOf l
end

/-- A fresh `ExprTypeChecker` state over a `TypeScopeBuilder::with_primitives`:
empty graph, allocated ids start at 1, `var_type_id` at the sentinel. -/
def initial_tc_state : TCState :=
  { equations := [], sources := [], tsMap := [], freshCounter := 1,
    varTypeId := TypeId.default, errors := [], internalError := false }

/-- Modelled from the spec: the `TypeConcretifier`/solver (not under src/)
resolves each node of the equation graph to a concrete type by substituting
known types and propagating across node-to-node edges, reporting a
type-mismatch diagnostic when a node reaches two incompatible concrete types
and an untyped/ambiguous diagnostic for nodes with no reachable concrete
constraint. -/
def typeConcretify (eqs : List TypeEquation) :
    List CheckerError × List (TypeId × ConcreteType) :=
  let step : List (TypeId × ConcreteType) → List (TypeId × ConcreteType) :=
    fun known =>
      eqs.foldl
        (fun acc eq =>
          match eq.rhs with
          | .Known t =>
            (match List.lookup eq.lhs acc with
             | some _ => acc
             | none => acc ++ [(eq.lhs, t)])
          | .Variable v =>
            (match List.lookup v acc, List.lookup eq.lhs acc with
             | some t, none => acc ++ [(eq.lhs, t)]
             | _, _ => acc)
          | .Fn _ _ => acc)
        known
  let solved := (List.range (eqs.length + 1)).foldl (fun acc _ => step acc) []
  let mismatches :=
    eqs.filterMap
      (fun eq =>
        match eq.rhs with
        | .Known t =>
          (match List.lookup eq.lhs solved with
           | some t2 =>
             if t2 = t then none
             else some (CheckerError.mk (toString eq.lhs) [] "Type mismatch")
           | none => none)
        | _ => none)
  let ambiguous :=
    eqs.filterMap
      (fun eq =>
        match List.lookup eq.lhs solved with
        | some _ => none
        | none => some (CheckerError.mk (toString eq.lhs) [] "Ambiguous type"))
  (mismatches ++ ambiguous, solved)

/-- `IdentifyRunner`: the unit, the error collector, and the builders carried
between pipeline stages. -/
structure IdentifyRunner where
  unit : Unit
  errors : List CheckerError
  name_builder : ScopeBuilder
  graph : List TypeEquation

/-- `CheckRunner`: constructed from an `IdentifyRunner` after a clean
identification stage. -/
structure CheckRunner where
  unit : Unit
  errors : List CheckerError
  graph : List TypeEquation

/-- `CheckedUnit`: the unit plus the final type mapping, the input to code
generation. -/
structure CheckedUnit where
  unit : Unit
  map : List (TypeId × ConcreteType)

/-- The errors collected by the identification stage on a runner (the
`ASTIdentifier` pass itself lives in the `identify` module, not under src/;
the NameIdentifier traversal stands in for it, per the spec's description of
identification). -/
def identifyErrors (r : IdentifyRunner) : List CheckerError :=
  (check_unit { currentId := ScopedId.default, builder := r.name_builder,
                errors := r.errors, assigned := [] } r.unit).1.errors

/-- `IdentifyRunner::identify`: run identification; if the collected error
list is non-empty, return the errors, else advance to a `CheckRunner`. -/
def IdentifyRunner.identify (r : IdentifyRunner) :
    Except (List CheckerError) CheckRunner :=
  let S := (check_unit { currentId := ScopedId.default, builder := r.name_builder,
                         errors := r.errors, assigned := [] } r.unit).1
  if S.errors.isEmpty then
    Except.ok { unit := r.unit, errors := S.errors, graph := r.graph }
  else
    Except.error S.errors

/-- The errors outstanding after the type-concretification stage on a
check runner. -/
def checkErrors (c : CheckRunner) : List CheckerError :=
  c.errors ++ (typeConcretify c.graph).1

/-- `CheckRunner::check`: run the type concretifier; if the collected error
list is non-empty, return the errors, else produce the `CheckedUnit` consumed
by code generation. -/
def CheckRunner.check (c : CheckRunner) :
    Except (List CheckerError) CheckedUnit :=
  let r := typeConcretify c.graph
  let errors := c.errors ++ r.1
  if errors.isEmpty then
    Except.ok { unit := c.unit, map := r.2 }
  else
    Except.error errors

/-- Strict lexicographic order on `ScopedId` paths, with a proper prefix
smaller than its extensions.  This is the order in which the traversal's
cursor produces ids; pairwise distinctness of assigned ids follows from it. -/
def idLt : ScopedId → ScopedId → Prop
  | [], [] => False
  | [], _ :: _ => True
  | _ :: _, [] => False
  | a :: as, b :: bs => a < b ∨ (a = b ∧ idLt as bs)

/-- Non-strict companion of `idLt`. -/
def idLe (a b : ScopedId) : Prop := idLt a b ∨ a = b

/-- The shape of the state change made by checking statements at a fixed
cursor depth: the trace grows by a sorted segment of new ids, each at least
the entry cursor and strictly below the exit cursor, and the cursor keeps its
depth and its enclosing path while never decreasing. -/
def StmtStep (S T : NIState) : Prop :=
  ∃ N, T.assigned = S.assigned ++ N ∧
    List.dropLast T.currentId = List.dropLast S.currentId ∧
    T.currentId.length = S.currentId.length ∧
    idLe S.currentId T.currentId ∧
    List.Pairwise idLt N ∧
    ∀ a ∈ N, idLe S.currentId a ∧ idLt a T.currentId

/-- The ids carried by a list of items. -/
def itemIds (items : List Item) : List ScopedId :=
  items.map (fun it => (Item.ident it).id)

/-- The items' ids form the consecutive increment chain starting at `c` (the
shape produced by the item first pass). -/
def IdsChain : ScopedId → List Item → Prop
  | _, [] => True
  | c, it :: rest => (Item.ident it).id = c ∧ IdsChain (ScopedId.increment c) rest

/-- The shape of the trace of ids assigned while checking a list of items:
one sorted segment per item, strictly between the item's own id and its
increment. -/
def TraceOK : List Item → List ScopedId → Prop
  | [], N => N = []
  | .fnDecl f :: rest, N => ∃ N1 N2, N = N1 ++ N2 ∧
      List.Pairwise idLt N1 ∧
      (∀ b ∈ N1, idLt f.ident.id b ∧ idLt b (ScopedId.increment f.ident.id)) ∧
      TraceOK rest N2

/-- Example program: `fn f(x)` whose body is a nested block declaring `x`
again (`let x = 1.0`) — a shadowing attempt across scopes. -/
def shadowExampleUnit : Unit :=
  ⟨[.fnDecl
    { ident := ⟨"f", ScopedId.default⟩,
      args := [⟨"x", ScopedId.default⟩],
      block := .mk (.cons
        (.block (.mk (.cons
          (.declaration (.mk ⟨"x", ScopedId.default⟩ (.lit (.float 1)))) .nil)))
        .nil) }]⟩

/-- Example function carrying the assigned (non-default) id `[9]`, with one
parameter and an empty body. -/
def assignedIdFn : FnDeclaration :=
  { ident := ⟨"g", [9]⟩, args := [⟨"x", ScopedId.default⟩], block := .mk .nil }

/-- Example state whose (outer) scope already binds `x`. -/
def outerXState : NIState :=
  { currentId := [5], builder := [[("x", [3])]], errors := [], assigned := [] }

/-- Example function with an assigned id whose parameter `x` shadows the outer
binding of `x` in `outerXState`. -/
def paramShadowFn : FnDeclaration :=
  { ident := ⟨"h", [4]⟩, args := [⟨"x", ScopedId.default⟩], block := .mk .nil }

/-- Example if-expression `if true => 1.0 else 2.0`. -/
def ifExprExample : Expr :=
  .ifExpr "if" (.lit (.bool true)) (.lit (.float 1)) (.lit (.float 2))

theorem idLt_irrefl (a : ScopedId) : ¬ idLt a a := by
  induction a with
  | nil => simp [idLt]
  | cons x xs ih =>
    intro h
    rcases h with h | ⟨-, h⟩
    · exact lt_irrefl x h
    · exact ih h

theorem idLt_trans : ∀ (a b c : ScopedId), idLt a b → idLt b c → idLt a c := by
  intro a
  induction a with
  | nil =>
    intro b c hab hbc
    cases b with
    | nil => exact absurd hab (by simp [idLt])
    | cons y ys =>
      cases c with
      | nil => exact absurd hbc (by simp [idLt])
      | cons z zs => simp [idLt]
  | cons x xs ih =>
    intro b c hab hbc
    cases b with
    | nil => exact absurd hab (by simp [idLt])
    | cons y ys =>
      cases c with
      | nil => exact absurd hbc (by simp [idLt])
      | cons z zs =>
        rcases hab with h1 | ⟨e1, h1⟩ <;> rcases hbc with h2 | ⟨e2, h2⟩
        · exact Or.inl (h1.trans h2)
        · exact Or.inl (e2 ▸ h1)
        · exact Or.inl (e1 ▸ h2)
        · exact Or.inr ⟨e1.trans e2, ih ys zs h1 h2⟩

theorem idLt_ne {a b : ScopedId} (h : idLt a b) : a ≠ b := by
  intro e
  subst e
  exact idLt_irrefl a h

theorem idLt_append_iff (q s t : ScopedId) : idLt (q ++ s) (q ++ t) ↔ idLt s t := by
  induction q with
  | nil => simp
  | cons x xs ih =>
    simp only [List.cons_append]
    constructor
    · intro h
      rcases h with h | ⟨-, h⟩
      · exact absurd h (lt_irrefl x)
      · exact ih.1 h
    · intro h
      exact Or.inr ⟨rfl, ih.2 h⟩

theorem idLt_extend : ∀ (a c s : ScopedId), idLt a c → idLt a (c ++ s) := by
  intro a
  induction a with
  | nil =>
    intro c s h
    cases c with
    | nil => exact absurd h (by simp [idLt])
    | cons y ys => simp [idLt]
  | cons x xs ih =>
    intro c s h
    cases c with
    | nil => exact absurd h (by simp [idLt])
    | cons y ys =>
      rcases h with h | ⟨e, h⟩
      · exact Or.inl h
      · exact Or.inr ⟨e, ih ys s h⟩

theorem idLt_concat_self : ∀ (c s : ScopedId), s ≠ [] → idLt c (c ++ s) := by
  intro c
  induction c with
  | nil =>
    intro s hs
    cases s with
    | nil => exact absurd rfl hs
    | cons y ys => simp [idLt]
  | cons x xs ih =>
    intro s hs
    exact Or.inr ⟨rfl, ih s hs⟩

theorem increment_concat (q : List Nat) (k : Nat) :
    ScopedId.increment (q ++ [k]) = q ++ [k + 1] := by
  induction q with
  | nil => rfl
  | cons x q ih =>
    cases q with
    | nil => rfl
    | cons y q2 =>
      show x :: ScopedId.increment ((y :: q2) ++ [k]) = x :: ((y :: q2) ++ [k + 1])
      rw [ih]

theorem increment_length (c : ScopedId) :
    (ScopedId.increment c).length = c.length := by
  rcases List.eq_nil_or_concat c with rfl | ⟨q, k, rfl⟩
  · rfl
  · rw [List.concat_eq_append, increment_concat]
    simp

theorem increment_ne_nil {c : ScopedId} (h : c ≠ []) :
    ScopedId.increment c ≠ [] := by
  intro e
  apply h
  have := increment_length c
  rw [e] at this
  exact List.length_eq_zero.1 this.symm

theorem increment_dropLast (c : ScopedId) :
    (ScopedId.increment c).dropLast = c.dropLast := by
  rcases List.eq_nil_or_concat c with rfl | ⟨q, k, rfl⟩
  · rfl
  · rw [List.concat_eq_append, increment_concat, List.dropLast_concat,
      List.dropLast_concat]

theorem idLt_increment {c : ScopedId} (h : c ≠ []) :
    idLt c (ScopedId.increment c) := by
  rcases List.eq_nil_or_concat c with rfl | ⟨q, k, rfl⟩
  · exact absurd rfl h
  · rw [List.concat_eq_append, increment_concat]
    exact (idLt_append_iff q [k] [k + 1]).2 (Or.inl (Nat.lt_succ_self k))

theorem idLt_snoc_bump : ∀ (q : List Nat) (k : Nat) (s : List Nat) (a : ScopedId),
    idLt a (q ++ (k :: s)) → idLt a (q ++ [k + 1]) := by
  intro q
  induction q with
  | nil =>
    intro k s a h
    cases a with
    | nil => simp [idLt]
    | cons x as =>
      rcases h with h | ⟨e, -⟩
      · exact Or.inl (Nat.lt_succ_of_lt h)
      · exact Or.inl (e ▸ Nat.lt_succ_self k)
  | cons y q2 ih =>
    intro k s a h
    cases a with
    | nil => simp [idLt]
    | cons x as =>
      rcases h with h | ⟨e, h⟩
      · exact Or.inl h
      · exact Or.inr ⟨e, ih k s as h⟩

theorem idLt_increment_of_lt_concat {c : ScopedId} {m : Nat} {a : ScopedId}
    (hc : c ≠ []) (h : idLt a (c ++ [m])) : idLt a (ScopedId.increment c) := by
  rcases List.eq_nil_or_concat c with rfl | ⟨q, k, rfl⟩
  · exact absurd rfl hc
  · rw [List.concat_eq_append, increment_concat]
    rw [List.concat_eq_append, List.append_assoc] at h
    exact idLt_snoc_bump q k [m] a h

theorem idLe_refl (a : ScopedId) : idLe a a := Or.inr rfl

theorem idLe_trans {a b c : ScopedId} (h1 : idLe a b) (h2 : idLe b c) : idLe a c := by
  rcases h1 with h1 | rfl
  · rcases h2 with h2 | rfl
    · exact Or.inl (idLt_trans a b c h1 h2)
    · exact Or.inl h1
  · exact h2

theorem idLt_of_idLe_of_idLt {a b c : ScopedId} (h1 : idLe a b) (h2 : idLt b c) :
    idLt a c := by
  rcases h1 with h1 | rfl
  · exact idLt_trans a b c h1 h2
  · exact h2

theorem idLt_of_idLt_of_idLe {a b c : ScopedId} (h1 : idLt a b) (h2 : idLe b c) :
    idLt a c := by
  rcases h2 with h2 | rfl
  · exact idLt_trans a b c h1 h2
  · exact h1

theorem check_var_ref_state (S : NIState) (i : Identifier) :
    (check_var_ref S i).1 = S := by
  unfold check_var_ref
  cases ScopeBuilder.get S.builder i.name <;> rfl

mutual
theorem check_expression_frame (S : NIState) (e : Expr) :
    (check_expression S e).1.currentId = S.currentId ∧
    (check_expression S e).1.builder = S.builder ∧
    (check_expression S e).1.assigned = S.assigned := by
  cases e with
  | lit v => exact ⟨rfl, rfl, rfl⟩
  | varRef i =>
    simp [check_expression, check_var_ref_state]
  | unaryOp op inner =>
    simp only [check_expression]
    exact check_expression_frame S inner
  | binaryOp op l r =>
    have h1 := check_expression_frame S l
    have h2 := check_expression_frame (check_expression S l).1 r
    simp only [check_expression]
    exact ⟨h2.1.trans h1.1, h2.2.1.trans h1.2.1, h2.2.2.trans h1.2.2⟩
  | ifExpr tok c t e =>
    have h1 := check_expression_frame S c
    have h2 := check_expression_frame (check_expression S c).1 t
    have h3 := check_expression_frame
      (check_expression (check_expression S c).1 t).1 e
    simp only [check_expression]
    exact ⟨(h3.1.trans h2.1).trans h1.1,
      (h3.2.1.trans h2.2.1).trans h1.2.1,
      (h3.2.2.trans h2.2.2).trans h1.2.2⟩
  | assignment lv rv =>
    have h2 := check_expression_frame (check_var_ref S lv).1 rv
    rw [check_var_ref_state] at h2
    simp only [check_expression, check_var_ref_state]
    exact h2
  | fnCall i args =>
    simp only [check_expression]
    exact check_fn_call_frame S i args
termination_by 2 * sizeOf e

theorem check_fn_call_frame (S : NIState) (ident : Identifier) (args : FnCallArgs) :
    (check_fn_call S ident args).1.currentId = S.currentId ∧
    (check_fn_call S ident args).1.builder = S.builder ∧
    (check_fn_call S ident args).1.assigned = S.assigned := by
  unfold check_fn_call
  cases h : ScopeBuilder.get S.builder ident.name with
  | none => exact ⟨rfl, rfl, rfl⟩
  | some fn_id =>
    cases args with
    | singleExpr e =>
      simp only
      exact check_expression_frame S e
    | argumentList l =>
      simp only
      exact check_call_args_frame S l
termination_by 2 * sizeOf args + 1

theorem check_call_args_frame (S : NIState) (l : CallArgList) :
    (check_call_args S l).1.currentId = S.currentId ∧
    (check_call_args S l).1.builder = S.builder ∧
    (check_call_args S l).1.assigned = S.assigned := by
  cases l with
  | nil => exact ⟨rfl, rfl, rfl⟩
  | cons a rest =>
    have h1 := check_call_arg_frame S a
    have h2 := check_call_args_frame (check_call_arg S a).1 rest
    simp only [check_call_args]
    exact ⟨h2.1.trans h1.1, h2.2.1.trans h1.2.1, h2.2.2.trans h1.2.2⟩
termination_by 2 * sizeOf l

theorem check_call_arg_frame (S : NIState) (a : CallArg) :
    (check_call_arg S a).1.currentId = S.currentId ∧
    (check_call_arg S a).1.builder = S.builder ∧
    (check_call_arg S a).1.assigned = S.assigned := by
  cases a with
  | mk name value =>
    cases value with
    | expression e =>
      simp only [check_call_arg]
      exact check_expression_frame S e
    | localVar v =>
      simp [check_call_arg, check_var_ref_state]
termination_by 2 * sizeOf a
end

theorem StmtStep_of_eq {S T : NIState} (h1 : T.assigned = S.assigned)
    (h2 : T.currentId = S.currentId) : StmtStep S T := by
  refine ⟨[], by simp [h1], by rw [h2], by rw [h2], by rw [h2]; exact idLe_refl _,
    by simp, by simp⟩

theorem StmtStep_refl (S : NIState) : StmtStep S S := StmtStep_of_eq rfl rfl

theorem StmtStep_trans {S T U : NIState} (g1 : StmtStep S T) (g2 : StmtStep T U) :
    StmtStep S U := by
  rcases g1 with ⟨N1, ha1, hd1, hl1, hle1, hp1, hb1⟩
  rcases g2 with ⟨N2, ha2, hd2, hl2, hle2, hp2, hb2⟩
  refine ⟨N1 ++ N2, by rw [ha2, ha1, List.append_assoc], hd2.trans hd1,
    hl2.trans hl1, idLe_trans hle1 hle2, ?_, ?_⟩
  · rw [List.pairwise_append]
    exact ⟨hp1, hp2, fun a ha b hb =>
      idLt_of_idLt_of_idLe (hb1 a ha).2 (hb2 b hb).1⟩
  · intro a ha
    rcases List.mem_append.1 ha with h | h
    · exact ⟨(hb1 a h).1, idLt_of_idLt_of_idLe (hb1 a h).2 hle2⟩
    · exact ⟨idLe_trans hle1 (hb2 a h).1, (hb2 a h).2⟩

theorem StmtStep_snapshot {S T : NIState} (h : S.currentId ≠ [])
    (ha : T.assigned = S.assigned ++ [S.currentId])
    (hc : T.currentId = ScopedId.increment S.currentId) : StmtStep S T := by
  refine ⟨[S.currentId], ha, by rw [hc]; exact increment_dropLast _,
    by rw [hc]; exact increment_length _, by rw [hc]; exact Or.inl (idLt_increment h),
    by simp, ?_⟩
  intro a haa
  simp only [List.mem_singleton] at haa
  subst haa
  exact ⟨idLe_refl _, by rw [hc]; exact idLt_increment h⟩

theorem StmtStep_currentId_ne_nil {S T : NIState} (g : StmtStep S T)
    (h : S.currentId ≠ []) : T.currentId ≠ [] := by
  rcases g with ⟨N, -, -, hl, -⟩
  intro e
  apply h
  rw [e] at hl
  exact List.length_eq_zero.1 hl.symm

theorem check_declaration_step (S : NIState) (d : Declaration)
    (h : S.currentId ≠ []) : StmtStep S (check_declaration S d).1 := by
  cases d with
  | mk ident value =>
    have hf := check_expression_frame S value
    simp only [check_declaration]
    cases hget : ScopeBuilder.get (check_expression S value).1.builder ident.name with
    | some d0 =>
      simp only
      exact StmtStep_of_eq hf.2.2 hf.1
    | none =>
      simp only
      refine StmtStep_snapshot h ?_ ?_
      · simp only [hf.2.2, hf.1]
      · simp only [hf.1]

mutual
theorem check_statement_step (S : NIState) (st : Stmt) (h : S.currentId ≠ []) :
    StmtStep S (check_statement S st).1 := by
  cases st with
  | declaration d =>
    simp only [check_statement]
    exact check_declaration_step S d h
  | expression e =>
    simp only [check_statement]
    have hf := check_expression_frame S e
    exact StmtStep_of_eq hf.2.2 hf.1
  | block b =>
    simp only [check_statement]
    exact check_block_step S b h
termination_by 2 * sizeOf st

theorem check_block_step (S : NIState) (b : Block) (h : S.currentId ≠ []) :
    StmtStep S (check_block S b).1 := by
  cases b with
  | mk stmts =>
    simp only [check_block]
    have hstep := check_stmt_list_step
      { S with currentId := ScopedId.push S.currentId,
               builder := ScopeBuilder.new_scope S.builder } stmts
      (by simp [ScopedId.push])
    set S1 : NIState :=
      { S with currentId := ScopedId.push S.currentId,
               builder := ScopeBuilder.new_scope S.builder } with hS1
    set R : NIState := (check_stmt_list S1 stmts).1 with hR
    rcases hstep with ⟨N, ha, hd, hl, hle, hp, hb⟩
    have hS1c : S1.currentId = S.currentId ++ [0] := rfl
    have hdrop : List.dropLast R.currentId = S.currentId := by
      rw [hd, hS1c, List.dropLast_concat]
    have hRne : R.currentId ≠ [] := by
      intro e
      rw [e] at hl
      simp [ScopedId.push] at hl
    have hdecomp : R.currentId = S.currentId ++ [R.currentId.getLast hRne] := by
      conv_lhs => rw [(List.dropLast_append_getLast hRne).symm]
      rw [hdrop]
    refine ⟨N, ?_, ?_, ?_, ?_, hp, ?_⟩
    · simpa [hS1] using ha
    · simp only [ScopedId.pop]
      rw [increment_dropLast, hdrop]
    · simp only [ScopedId.pop]
      rw [increment_length, hdrop]
    · simp only [ScopedId.pop]
      rw [hdrop]
      exact Or.inl (idLt_increment h)
    · intro a haN
      have hlow : idLt S.currentId a := by
        refine idLt_of_idLt_of_idLe ?_ (hb a haN).1
        rw [hS1c]
        exact idLt_concat_self _ _ (by simp)
      have hconc : idLt a (S.currentId ++ [List.getLast R.currentId hRne]) := by
        rw [← hdecomp]
        exact (hb a haN).2
      have hup := idLt_increment_of_lt_concat h hconc
      refine ⟨Or.inl hlow, ?_⟩
      simp only [ScopedId.pop]
      rw [hdrop]
      exact hup
termination_by 2 * sizeOf b

theorem check_stmt_list_step (S : NIState) (l : StmtList) (h : S.currentId ≠ []) :
    StmtStep S (check_stmt_list S l).1 := by
  cases l with
  | nil => exact StmtStep_refl S
  | cons st rest =>
    simp only [check_stmt_list]
    have h1 := check_statement_step S st h
    have h2 := check_stmt_list_step (check_statement S st).1 rest
      (StmtStep_currentId_ne_nil h1 h)
    exact StmtStep_trans h1 h2
termination_by 2 * sizeOf l
end

theorem check_params_step : ∀ (l : List Identifier) (S : NIState),
    S.currentId ≠ [] → StmtStep S (check_params S l).1 := by
  intro l
  induction l with
  | nil =>
    intro S h
    exact StmtStep_refl S
  | cons p rest ih =>
    intro S h
    cases hget : ScopeBuilder.get S.builder p.name with
    | some d0 =>
      simp only [check_params, hget]
      exact StmtStep_trans (StmtStep_of_eq rfl rfl) (ih _ h)
    | none =>
      simp only [check_params, hget]
      exact StmtStep_trans (StmtStep_snapshot h rfl rfl)
        (ih _ (increment_ne_nil h))

theorem check_fn_declaration_trace (S : NIState) (f : FnDeclaration)
    (hg : f.ident.id ≠ []) :
    ∃ N, (check_fn_declaration S f).1.assigned = S.assigned ++ N ∧
      List.Pairwise idLt N ∧
      ∀ b ∈ N, idLt f.ident.id b ∧ idLt b (ScopedId.increment f.ident.id) := by
  by_cases hdef : f.ident.id = ScopedId.default
  · refine ⟨[], ?_, by simp, by simp⟩
    simp [check_fn_declaration, hdef]
  · simp only [check_fn_declaration, if_neg hdef]
    set S1 : NIState :=
      { S with currentId := ScopedId.push f.ident.id,
               builder := ScopeBuilder.new_scope S.builder } with hS1
    have h1 : S1.currentId ≠ [] := by simp [hS1, ScopedId.push]
    have g1 := check_params_step f.args S1 h1
    have h2 := StmtStep_currentId_ne_nil g1 h1
    have g2 := check_stmt_list_step (check_params S1 f.args).1
      (Block.stmts f.block) h2
    have g := StmtStep_trans g1 g2
    set R : NIState :=
      (check_stmt_list (check_params S1 f.args).1 (Block.stmts f.block)).1 with hRdef
    have hRne : R.currentId ≠ [] := StmtStep_currentId_ne_nil g h1
    rcases g with ⟨N, ha, hd, hl, hle, hp, hb⟩
    have hS1c : S1.currentId = f.ident.id ++ [0] := rfl
    have hdrop : List.dropLast R.currentId = f.ident.id := by
      rw [hd, hS1c, List.dropLast_concat]
    have hdecomp : R.currentId = f.ident.id ++ [R.currentId.getLast hRne] := by
      conv_lhs => rw [(List.dropLast_append_getLast hRne).symm]
      rw [hdrop]
    refine ⟨N, ?_, hp, ?_⟩
    · simpa [hS1] using ha
    · intro b hbN
      have hlow : idLt f.ident.id b := by
        refine idLt_of_idLt_of_idLe ?_ (hb b hbN).1

        rw [hS1c]
        exact idLt_concat_self _ _ (by simp)
      have hconc : idLt b (f.ident.id ++ [List.getLast R.currentId hRne]) := by
        rw [← hdecomp]
        exact (hb b hbN).2
      exact ⟨hlow, idLt_increment_of_lt_concat hg hconc⟩

theorem first_pass_items_spec : ∀ (items : List Item) (S : NIState),
    (first_pass_items S items).1.assigned =
      S.assigned ++ itemIds (first_pass_items S items).2 ∧
    IdsChain S.currentId (first_pass_items S items).2 := by
  intro items
  induction items with
  | nil =>
    intro S
    exact ⟨by simp [first_pass_items, itemIds], trivial⟩
  | cons it rest ih =>
    intro S
    cases it with
    | fnDecl f =>
      simp only [first_pass_items]
      set S1 : NIState :=
        { S with currentId := ScopedId.increment S.currentId,
                 builder := ScopeBuilder.define_local S.builder f.ident.name S.currentId,
                 assigned := S.assigned ++ [S.currentId] } with hS1
      have h := ih S1
      constructor
      · rw [h.1]
        simp [hS1, itemIds, Item.ident]
      · exact ⟨rfl, h.2⟩

theorem itemIds_cons (it : Item) (rest : List Item) :
    itemIds (it :: rest) = (Item.ident it).id :: itemIds rest := rfl

theorem idsChain_ne_nil : ∀ (items : List Item) (c : ScopedId), c ≠ [] →
    IdsChain c items → ∀ it ∈ items, (Item.ident it).id ≠ [] := by
  intro items
  induction items with
  | nil =>
    intro c _ _ it hit
    simp at hit
  | cons it rest ih =>
    intro c hc hch it2 hit2
    rcases hch with ⟨hid, hch2⟩
    rcases List.mem_cons.1 hit2 with rfl | hmem
    · rw [hid]
      exact hc
    · exact ih (ScopedId.increment c) (increment_ne_nil hc) hch2 it2 hmem

theorem idsChain_lower : ∀ (items : List Item) (c : ScopedId), c ≠ [] →
    IdsChain c items → ∀ x ∈ itemIds items, idLe c x := by
  intro items
  induction items with
  | nil =>
    intro c _ _ x hx
    simp [itemIds] at hx
  | cons it rest ih =>
    intro c hc hch x hx
    rcases hch with ⟨hid, hch2⟩
    rw [itemIds_cons] at hx
    rcases List.mem_cons.1 hx with rfl | hxm
    · rw [hid]
      exact idLe_refl c
    · refine idLe_trans (Or.inl (idLt_increment hc)) ?_
      exact ih (ScopedId.increment c) (increment_ne_nil hc) hch2 x hxm

theorem idsChain_pairwise : ∀ (items : List Item) (c : ScopedId), c ≠ [] →
    IdsChain c items → List.Pairwise idLt (itemIds items) := by
  intro items
  induction items with
  | nil =>
    intro c _ _
    simp [itemIds]
  | cons it rest ih =>
    intro c hc hch
    rcases hch with ⟨hid, hch2⟩
    have htail := ih (ScopedId.increment c) (increment_ne_nil hc) hch2
    have hhead : ∀ x ∈ itemIds rest, idLt (Item.ident it).id x := by
      intro x hx
      have hx2 := idsChain_lower rest (ScopedId.increment c)
        (increment_ne_nil hc) hch2 x hx
      rw [hid]
      exact idLt_of_idLt_of_idLe (idLt_increment hc) hx2
    show List.Pairwise idLt ((Item.ident it).id :: itemIds rest)
    exact List.Pairwise.cons hhead htail

theorem check_items_trace : ∀ (items : List Item) (S : NIState),
    (∀ it ∈ items, (Item.ident it).id ≠ []) →
    ∃ N, (check_items S items).1.assigned = S.assigned ++ N ∧ TraceOK items N := by
  intro items
  induction items with
  | nil =>
    intro S _
    exact ⟨[], by simp [check_items], rfl⟩
  | cons it rest ih =>
    intro S hids
    cases it with
    | fnDecl f =>
      have hg : f.ident.id ≠ [] := hids _ (List.mem_cons_self _ _)
      obtain ⟨N1, ha1, hp1, hb1⟩ := check_fn_declaration_trace S f hg
      obtain ⟨N2, ha2, ht2⟩ := ih (check_fn_declaration S f).1
        (fun it2 h2 => hids it2 (List.mem_cons_of_mem _ h2))
      refine ⟨N1 ++ N2, ?_, ⟨N1, N2, rfl, hp1, hb1, ht2⟩⟩
      simp only [check_items, check_item]
      rw [ha2, ha1, List.append_assoc]

theorem traceOK_sorted : ∀ (items : List Item) (c : ScopedId) (N : List ScopedId),
    c ≠ [] → IdsChain c items → TraceOK items N →
    List.Pairwise idLt N ∧ ∀ b ∈ N, idLt c b := by
  intro items
  induction items with
  | nil =>
    intro c N _ _ ht
    rw [show N = [] from ht]
    exact ⟨by simp, by simp⟩
  | cons it rest ih =>
    intro c N hc hch ht
    cases it with
    | fnDecl f =>
      obtain ⟨hid, hch2⟩ := hch
      have hid2 : f.ident.id = c := hid
      obtain ⟨N1, N2, rfl, hp1, hb1, ht2⟩ := ht
      have hrest := ih (ScopedId.increment c) N2 (increment_ne_nil hc) hch2 ht2
      constructor
      · rw [List.pairwise_append]
        refine ⟨hp1, hrest.1, ?_⟩
        intro a ha b hb
        have h1 : idLt a (ScopedId.increment c) := by
          have h2 := (hb1 a ha).2
          rwa [hid2] at h2
        exact idLt_trans _ _ _ h1 (hrest.2 b hb)
      · intro b hb
        rcases List.mem_append.1 hb with h | h
        · have h2 := (hb1 b h).1
          rwa [hid2] at h2
        · exact idLt_trans _ _ _ (idLt_increment hc) (hrest.2 b h)

theorem traceOK_items_disjoint : ∀ (items : List Item) (c : ScopedId)
    (N : List ScopedId), c ≠ [] → IdsChain c items → TraceOK items N →
    ∀ x ∈ itemIds items, ∀ b ∈ N, x ≠ b := by
  intro items
  induction items with
  | nil =>
    intro c N _ _ _ x hx
    simp [itemIds] at hx
  | cons it rest ih =>
    intro c N hc hch ht x hx b hb
    cases it with
    | fnDecl f =>
      obtain ⟨hid, hch2⟩ := hch
      have hid2 : f.ident.id = c := hid
      obtain ⟨N1, N2, rfl, hp1, hb1, ht2⟩ := ht
      have hrest := traceOK_sorted rest (ScopedId.increment c) N2
        (increment_ne_nil hc) hch2 ht2
      rw [itemIds_cons] at hx
      rcases List.mem_cons.1 hx with rfl | hxm
      · rcases List.mem_append.1 hb with h | h
        · exact idLt_ne ((hb1 b h).1)
        · have h2 : idLt c b :=
            idLt_trans _ _ _ (idLt_increment hc) (hrest.2 b h)
          rw [hid]
          exact idLt_ne h2
      · rcases List.mem_append.1 hb with h | h
        · have hxlow : idLe (ScopedId.increment c) x :=
            idsChain_lower rest _ (increment_ne_nil hc) hch2 x hxm
          have hbup : idLt b (ScopedId.increment c) := by
            have h2 := (hb1 b h).2
            rwa [hid2] at h2
          exact (idLt_ne (idLt_of_idLt_of_idLe hbup hxlow)).symm
        · exact ih (ScopedId.increment c) N2 (increment_ne_nil hc) hch2 ht2 x
            hxm b h

theorem check_unit_trace (S : NIState) (u : Unit) :
    ∃ M, (check_unit S u).1.assigned = S.assigned ++ M ∧
      List.Pairwise (fun a b => a ≠ b) M := by
  have hfp := first_pass_items_spec u.items
    { S with currentId := ScopedId.push (ScopedId.increment S.currentId) }
  set S1 : NIState :=
    { S with currentId := ScopedId.push (ScopedId.increment S.currentId) } with hS1
  set rf := first_pass_items S1 u.items with hrfdef
  have hc0 : S1.currentId ≠ [] := by simp [hS1, ScopedId.push]
  have hchain : IdsChain S1.currentId rf.2 := hfp.2
  have hids := idsChain_ne_nil rf.2 S1.currentId hc0 hchain
  obtain ⟨N, haN, htr⟩ := check_items_trace rf.2 rf.1 hids
  have hsorted := traceOK_sorted rf.2 S1.currentId N hc0 hchain htr
  have hdisj := traceOK_items_disjoint rf.2 S1.currentId N hc0 hchain htr
  have hpairF := idsChain_pairwise rf.2 S1.currentId hc0 hchain
  refine ⟨itemIds rf.2 ++ N, ?_, ?_⟩
  · show (check_unit S u).1.assigned = _
    simp only [check_unit]
    rw [← hS1, ← hrfdef]
    show (check_items rf.1 rf.2).1.assigned = _
    rw [haN, hfp.1]
    simp [hS1, List.append_assoc]
  · rw [List.pairwise_append]
    refine ⟨hpairF.imp (fun h => idLt_ne h), hsorted.1.imp (fun h => idLt_ne h),
      fun a ha b hb => hdisj a ha b hb⟩

/-- C1: for every AST processed by the name-resolution pass (the
NameIdentifier visiting a Unit), all ScopedIds assigned to declarations
(functions, parameters, local variables) are pairwise distinct, across all
scopes and blocks of the traversal. -/
theorem name_resolution_assigned_ids_pairwise_distinct (u : Unit) :
    List.Pairwise (fun a b => a ≠ b) (name_identify_unit u).1.assigned := by
  obtain ⟨M, hM, hp⟩ := check_unit_trace initial_state u
  unfold name_identify_unit
  rw [hM]
  simpa [initial_state] using hp

/-- C2 counterexample: in `shadowExampleUnit` the declaration of `x` in a
nested block, while `x` is bound as a parameter of the enclosing function, is
NOT accepted: the pass records a duplicate-declaration error — falsifying
"the nested declaration is accepted without a duplicate-declaration error
(shadowing is legal)". -/
theorem nested_shadowing_rejected_counterexample :
    (name_identify_unit shadowExampleUnit).1.errors =
      [⟨"x", [], "Variable x is already declared"⟩] := by decide

/-- C2 amended: a declaration whose name is already bound in ANY visible scope
— the same scope or an enclosing one — is rejected: exactly one
duplicate-declaration error is recorded, no id is assigned (cursor, scope
table and assigned-id trace unchanged, the declaration's identifier keeps its
old id), and a reference to the name afterwards still resolves to the outer
binding, never a new inner one. -/
theorem nested_duplicate_declaration_rejected (S : NIState) (ident : Identifier)
    (value : Expr) (outer : ScopedId)
    (h : ScopeBuilder.get S.builder ident.name = some outer) :
    (check_declaration S (.mk ident value)).1.currentId = S.currentId ∧
    (check_declaration S (.mk ident value)).1.builder = S.builder ∧
    (check_declaration S (.mk ident value)).1.assigned = S.assigned ∧
    (check_declaration S (.mk ident value)).1.errors =
      (check_expression S value).1.errors ++
        [⟨ident.name, [], "Variable " ++ ident.name ++ " is already declared"⟩] ∧
    (check_declaration S (.mk ident value)).2 =
      .mk ident (check_expression S value).2 ∧
    ∀ r : Identifier, r.name = ident.name →
      (check_var_ref (check_declaration S (.mk ident value)).1 r).2.id = outer := by
  have hf := check_expression_frame S value
  have hget : ScopeBuilder.get (check_expression S value).1.builder ident.name =
      some outer := by rw [hf.2.1]; exact h
  refine ⟨?_, ?_, ?_, ?_, ?_, ?_⟩
  · simp only [check_declaration, hget]
    exact hf.1
  · simp only [check_declaration, hget]
    exact hf.2.1
  · simp only [check_declaration, hget]
    exact hf.2.2
  · simp only [check_declaration, hget]
  · simp only [check_declaration, hget]
  · intro r hr
    simp only [check_declaration, hget]
    unfold check_var_ref
    simp only [hr, hf.2.1, h]

/-- C2 amended, witness: the outer scope binds `x` to `[3]`; the nested
declaration of `x` is rejected with one error, assigns nothing, and a
reference to `x` still resolves to `[3]`. -/
theorem nested_duplicate_declaration_rejected_witness :
    (check_declaration outerXState
      (.mk ⟨"x", ScopedId.default⟩ (.lit (.float 1)))).1.currentId =
        outerXState.currentId ∧
    (check_declaration outerXState
      (.mk ⟨"x", ScopedId.default⟩ (.lit (.float 1)))).1.builder =
        outerXState.builder ∧
    (check_declaration outerXState
      (.mk ⟨"x", ScopedId.default⟩ (.lit (.float 1)))).1.assigned =
        outerXState.assigned ∧
    (check_declaration outerXState
      (.mk ⟨"x", ScopedId.default⟩ (.lit (.float 1)))).1.errors =
      (check_expression outerXState (.lit (.float 1))).1.errors ++
        [⟨"x", [], "Variable " ++ "x" ++ " is already declared"⟩] ∧
    (check_declaration outerXState
      (.mk ⟨"x", ScopedId.default⟩ (.lit (.float 1)))).2 =
      .mk ⟨"x", ScopedId.default⟩
        (check_expression outerXState (.lit (.float 1))).2 ∧
    ∀ r : Identifier, r.name = "x" →
      (check_var_ref (check_declaration outerXState
        (.mk ⟨"x", ScopedId.default⟩ (.lit (.float 1)))).1 r).2.id = [3] :=
  nested_duplicate_declaration_rejected outerXState ⟨"x", ScopedId.default⟩
    (.lit (.float 1)) [3] (by decide)

/-- C3 counterexample: checking `assignedIdFn`, whose identifier already
carries the assigned (non-default) id `[9]`, is NOT a no-op: the pass
processes the function and allocates the id `[9, 0]` for its parameter —
falsifying "processing of that function is skipped entirely, so no new ids
are allocated". -/
theorem assigned_id_fn_processed_counterexample :
    (check_fn_declaration
      { currentId := [0], builder := [[]], errors := [], assigned := [] }
      assignedIdFn).1.assigned = [[9, 0]] := by decide

/-- C3 amended: the skip guard is the other way around: processing a function
declaration is a no-op — no new ids allocated, no new errors, the node
returned unchanged — exactly when its identifier carries the DEFAULT
(unassigned) ScopedId (a duplicate already flagged upstream). -/
theorem default_id_fn_skipped (S : NIState) (f : FnDeclaration)
    (h : f.ident.id = ScopedId.default) :
    check_fn_declaration S f = (S, f) := by
  simp [check_fn_declaration, h]

/-- C3 amended, witness. -/
theorem default_id_fn_skipped_witness :
    check_fn_declaration
      { currentId := [0], builder := [[]], errors := [], assigned := [] }
      { ident := ⟨"g", ScopedId.default⟩, args := [⟨"x", ScopedId.default⟩],
        block := .mk .nil } =
      ({ currentId := [0], builder := [[]], errors := [], assigned := [] },
       { ident := ⟨"g", ScopedId.default⟩, args := [⟨"x", ScopedId.default⟩],
         block := .mk .nil }) :=
  default_id_fn_skipped _ _ rfl

/-- C4: a function call with an undeclared callee records exactly one
"Unknown function" error and its arguments are not recursed into (the state
and the call node are otherwise unchanged); a call with a known callee gets
the resolved id attached to the call-site identifier and every argument
expression is resolved. -/
theorem check_fn_call_unknown_and_known (S : NIState) (ident : Identifier)
    (args : FnCallArgs) :
    (ScopeBuilder.get S.builder ident.name = none →
      check_fn_call S ident args =
        ({ S with errors := S.errors ++
            [⟨ident.name, [], "Unknown function " ++ ident.name⟩] },
         .fnCall ident args)) ∧
    (∀ i, ScopeBuilder.get S.builder ident.name = some i →
      (∀ e, args = .singleExpr e →
        check_fn_call S ident args =
          ((check_expression S e).1,
           .fnCall { ident with id := i }
             (.singleExpr (check_expression S e).2))) ∧
      (∀ l, args = .argumentList l →
        check_fn_call S ident args =
          ((check_call_args S l).1,
           .fnCall { ident with id := i }
             (.argumentList (check_call_args S l).2)))) := by
  constructor
  · intro h
    simp [check_fn_call, h]
  · intro i h
    constructor
    · intro e he
      subst he
      simp [check_fn_call, h]
    · intro l hl
      subst hl
      simp [check_fn_call, h]

/-- C4 witness: with `f` declared and `g` not, calling `g(1.0)` records one
"Unknown function g" error leaving the argument untouched, and calling
`f(1.0)` attaches `f`'s id `[1, 0]` to the call site. -/
theorem check_fn_call_unknown_and_known_witness :
    check_fn_call
      { currentId := [5], builder := [[("f", [1, 0])]], errors := [], assigned := [] }
      ⟨"g", ScopedId.default⟩ (.singleExpr (.lit (.float 1))) =
      ({ currentId := [5], builder := [[("f", [1, 0])]],
         errors := [⟨"g", [], "Unknown function " ++ "g"⟩], assigned := [] },
       .fnCall ⟨"g", ScopedId.default⟩ (.singleExpr (.lit (.float 1)))) ∧
    check_fn_call
      { currentId := [5], builder := [[("f", [1, 0])]], errors := [], assigned := [] }
      ⟨"f", ScopedId.default⟩ (.singleExpr (.lit (.float 1))) =
      ((check_expression
          { currentId := [5], builder := [[("f", [1, 0])]], errors := [],
            assigned := [] } (.lit (.float 1))).1,
       .fnCall ⟨"f", [1, 0]⟩
         (.singleExpr (check_expression
           { currentId := [5], builder := [[("f", [1, 0])]], errors := [],
             assigned := [] } (.lit (.float 1))).2)) := by
  constructor
  · exact (check_fn_call_unknown_and_known _ ⟨"g", ScopedId.default⟩ _).1 (by decide)
  · exact ((check_fn_call_unknown_and_known _ ⟨"f", ScopedId.default⟩ _).2 [1, 0]
      (by decide)).1 (.lit (.float 1)) rfl

/-- C7 counterexample: checking `paramShadowFn` in `outerXState` — whose
parameter `x` merely shadows the OUTER binding of `x` — records a "duplicate
argument" error and assigns the parameter no id, falsifying "the pass looks
the parameter name up in the current (innermost) scope only; a parameter
merely shadowing an outer-scope name is not an error". -/
theorem param_shadowing_error_counterexample :
    (check_fn_declaration outerXState paramShadowFn).1.errors =
      [⟨"x", [], "Argument x is already declared"⟩] ∧
    (check_fn_declaration outerXState paramShadowFn).2.args =
      [⟨"x", ScopedId.default⟩] ∧
    (check_fn_declaration outerXState paramShadowFn).1.assigned = [] := by decide

/-- C7 amended: the parameter check looks the name up across ALL scopes,
innermost to outermost: any visible binding — including one that the
parameter would merely shadow — yields a "duplicate argument" error and no id
for that parameter; only when the name is visible nowhere does the pass
snapshot the cursor as the parameter's id, increment the cursor, and define
the name in the scope table. -/
theorem check_params_lookup_all_scopes (S : NIState) (p : Identifier)
    (rest : List Identifier) :
    (∀ d, ScopeBuilder.get S.builder p.name = some d →
      check_params S (p :: rest) =
        ((check_params { S with errors := S.errors ++
            [⟨p.name, [], "Argument " ++ p.name ++ " is already declared"⟩] }
            rest).1,
         p :: (check_params { S with errors := S.errors ++
            [⟨p.name, [], "Argument " ++ p.name ++ " is already declared"⟩] }
            rest).2)) ∧
    (ScopeBuilder.get S.builder p.name = none →
      check_params S (p :: rest) =
        ((check_params { S with
            currentId := ScopedId.increment S.currentId,
            builder := ScopeBuilder.define_local S.builder p.name S.currentId,
            assigned := S.assigned ++ [S.currentId] } rest).1,
         { p with id := S.currentId } ::
           (check_params { S with
              currentId := ScopedId.increment S.currentId,
              builder := ScopeBuilder.define_local S.builder p.name S.currentId,
              assigned := S.assigned ++ [S.currentId] } rest).2)) := by
  constructor
  · intro d h
    simp [check_params, h]
  · intro h
    simp [check_params, h]

/-- C7 amended, witness: in `outerXState` the parameter `x` (bound in the
outer scope) is rejected, while a parameter `y` (bound nowhere) receives the
cursor snapshot `[5]` as its id. -/
theorem check_params_lookup_all_scopes_witness :
    check_params outerXState [⟨"x", ScopedId.default⟩] =
      ((check_params { outerXState with errors := outerXState.errors ++
          [⟨"x", [], "Argument " ++ "x" ++ " is already declared"⟩] } []).1,
       ⟨"x", ScopedId.default⟩ ::
         (check_params { outerXState with errors := outerXState.errors ++
           [⟨"x", [], "Argument " ++ "x" ++ " is already declared"⟩] } []).2) ∧
    check_params outerXState [⟨"y", ScopedId.default⟩] =
      ((check_params { outerXState with
          currentId := ScopedId.increment outerXState.currentId,
          builder := ScopeBuilder.define_local outerXState.builder "y"
            outerXState.currentId,
          assigned := outerXState.assigned ++ [outerXState.currentId] } []).1,
       ⟨"y", outerXState.currentId⟩ ::
         (check_params { outerXState with
            currentId := ScopedId.increment outerXState.currentId,
            builder := ScopeBuilder.define_local outerXState.builder "y"
              outerXState.currentId,
            assigned := outerXState.assigned ++ [outerXState.currentId] } []).2) := by
  constructor
  · exact (check_params_lookup_all_scopes outerXState ⟨"x", ScopedId.default⟩ []).1
      [3] (by decide)
  · exact (check_params_lookup_all_scopes outerXState ⟨"y", ScopedId.default⟩ []).2
      (by decide)

/-- C9: a plain variable reference is looked up innermost-to-outermost; if
found, the resolved id is attached to the reference node; if not found, the
node is left unresolved and no diagnostic is recorded — in both cases the
checker state is unchanged. -/
theorem check_var_ref_resolution (S : NIState) (ident : Identifier) :
    (ScopeBuilder.get S.builder ident.name = none →
      check_var_ref S ident = (S, ident)) ∧
    (∀ i, ScopeBuilder.get S.builder ident.name = some i →
      check_var_ref S ident = (S, { ident with id := i })) := by
  constructor
  · intro h
    simp [check_var_ref, h]
  · intro i h
    simp [check_var_ref, h]

/-- C9 witness: `x` (bound to `[3]`) resolves and gets `[3]` attached; `y`
(unbound) stays untouched with no error. -/
theorem check_var_ref_resolution_witness :
    check_var_ref outerXState ⟨"x", ScopedId.default⟩ =
      (outerXState, ⟨"x", [3]⟩) ∧
    check_var_ref outerXState ⟨"y", ScopedId.default⟩ =
      (outerXState, ⟨"y", ScopedId.default⟩) := by
  constructor
  · exact (check_var_ref_resolution outerXState ⟨"x", ScopedId.default⟩).2 [3]
      (by decide)
  · exact (check_var_ref_resolution outerXState ⟨"y", ScopedId.default⟩).1
      (by decide)

/-- C5 counterexample: on `if true => 1.0 else 2.0` the checker emits the
branch-agreement equation `node 2 = node 3` (left branch is node 2, else
branch is node 3) but leaves `var_type_id` — the result node of the
if-expression — at node 3, the ELSE branch's node, falsifying "the result
node of the if-expression is the left (true) branch's node". -/
theorem if_expr_result_node_counterexample :
    (visit_expression initial_tc_state ifExprExample).equations =
      [⟨1, .Known (.Primitive .Bool)⟩, ⟨1, .Known (.Primitive .Bool)⟩,
       ⟨2, .Known (.Primitive .Int)⟩, ⟨3, .Known (.Primitive .Int)⟩,
       ⟨2, .Variable 3⟩] ∧
    (visit_expression initial_tc_state ifExprExample).varTypeId = 3 ∧
    (visit_expression initial_tc_state ifExprExample).varTypeId ≠ 2 := by
  refine ⟨?_, ?_, ?_⟩ <;>
    simp [ifExprExample, visit_expression, visit_if_expr, visit_literal_expr,
      initial_tc_state, TCState.add_equation, TCState.add_source,
      TCState.fresh_id, TypeId.default]

/-- C5 amended: for every if-expression the checker adds an equation
constraining the condition's node to bool (tagged if-conditional-bool), adds
an equation equating the true-branch node with the else-branch node with both
branch nodes tagged "branches must agree" — and the result node of the
if-expression is the RIGHT (else) branch's node, not the left one. -/
theorem visit_if_expr_equations (S : TCState) (tok : String) (c t e : Expr) :
    (let S1 := visit_expression { S with varTypeId := TypeId.default } c
     let S2 := (S1.add_equation
         ⟨S1.varTypeId, .Known (.Primitive .Bool)⟩).add_source
         S1.varTypeId (.IfConditionalBool tok)
     let S3 := visit_expression S2 t
     let S4 := visit_expression S3 e
     let R := visit_expression S (.ifExpr tok c t e)
     S2.equations = S1.equations ++ [⟨S1.varTypeId, .Known (.Primitive .Bool)⟩] ∧
     S2.sources = S1.sources ++ [(S1.varTypeId, .IfConditionalBool tok)] ∧
     R.equations = S4.equations ++ [⟨S3.varTypeId, .Variable S4.varTypeId⟩] ∧
     R.sources = S4.sources ++
       [(S3.varTypeId, .IfBranchesSame tok), (S4.varTypeId, .IfBranchesSame tok)] ∧
     R.varTypeId = S4.varTypeId) := by
  refine ⟨rfl, rfl, ?_, ?_, ?_⟩ <;>
    simp [visit_expression, visit_if_expr, TCState.add_equation,
      TCState.add_source]

/-- C6: the equations emitted for a binary operation follow the operator
class: for `==`/`!=`, `left = right`, `right = left` and a fresh result node
constrained to the numeric primitive (bool-as-int); for the orderings, both
operands constrained numeric and a fresh result node constrained to bool; for
arithmetic, both operands and a fresh result node constrained numeric.  In
each class the fresh node (the builder's next counter after visiting the
operands) is the result. -/
theorem visit_binary_op_equations (S : TCState) (op : Operator) (l r : Expr) :
    (let S1 := visit_expression S l
     let S2 := visit_expression S1 r
     let R := visit_expression S (.binaryOp op l r)
     ((op = .Equality ∨ op = .NonEquality) →
        R.equations = S2.equations ++
          [⟨S1.varTypeId, .Variable S2.varTypeId⟩,
           ⟨S2.varTypeId, .Variable S1.varTypeId⟩,
           ⟨S2.freshCounter, .Known (.Primitive .Int)⟩] ∧
        R.varTypeId = S2.freshCounter) ∧
     ((op = .LessThan ∨ op = .GreaterThan ∨ op = .GreaterThanEquals ∨
       op = .LessThanEquals) →
        R.equations = S2.equations ++
          [⟨S1.varTypeId, .Known (.Primitive .Int)⟩,
           ⟨S2.varTypeId, .Known (.Primitive .Int)⟩,
           ⟨S2.freshCounter, .Known (.Primitive .Bool)⟩] ∧
        R.varTypeId = S2.freshCounter) ∧
     ((op = .Addition ∨ op = .Subtraction ∨ op = .Multiplication ∨
       op = .Division ∨ op = .Modulus) →
        R.equations = S2.equations ++
          [⟨S1.varTypeId, .Known (.Primitive .Int)⟩,
           ⟨S2.varTypeId, .Known (.Primitive .Int)⟩,
           ⟨S2.freshCounter, .Known (.Primitive .Int)⟩] ∧
        R.varTypeId = S2.freshCounter)) := by
  refine ⟨?_, ?_, ?_⟩ <;>
    intro h <;>
    rcases h with rfl | rfl | rfl | rfl | rfl <;>
    constructor <;>
    simp [visit_expression, visit_binary_op, TCState.add_equation,
      TCState.add_source, TCState.fresh_id]

/-- C6 witness: concrete instances — `1.0 == 2.0` appends
`left = right; right = left; fresh(3) = Int`, `1.0 < 2.0` appends
`left = Int; right = Int; fresh(3) = Bool`, `1.0 + 2.0` appends
`left = Int; right = Int; fresh(3) = Int`. -/
theorem visit_binary_op_equations_witness :
    ((visit_expression initial_tc_state
        (.binaryOp .Equality (.lit (.float 1)) (.lit (.float 2)))).equations =
      [⟨1, .Known (.Primitive .Int)⟩, ⟨2, .Known (.Primitive .Int)⟩,
       ⟨1, .Variable 2⟩, ⟨2, .Variable 1⟩, ⟨3, .Known (.Primitive .Int)⟩] ∧
     (visit_expression initial_tc_state
        (.binaryOp .Equality (.lit (.float 1)) (.lit (.float 2)))).varTypeId = 3) ∧
    ((visit_expression initial_tc_state
        (.binaryOp .LessThan (.lit (.float 1)) (.lit (.float 2)))).equations =
      [⟨1, .Known (.Primitive .Int)⟩, ⟨2, .Known (.Primitive .Int)⟩,
       ⟨1, .Known (.Primitive .Int)⟩, ⟨2, .Known (.Primitive .Int)⟩,
       ⟨3, .Known (.Primitive .Bool)⟩] ∧
     (visit_expression initial_tc_state
        (.binaryOp .LessThan (.lit (.float 1)) (.lit (.float 2)))).varTypeId = 3) ∧
    ((visit_expression initial_tc_state
        (.binaryOp .Addition (.lit (.float 1)) (.lit (.float 2)))).equations =
      [⟨1, .Known (.Primitive .Int)⟩, ⟨2, .Known (.Primitive .Int)⟩,
       ⟨1, .Known (.Primitive .Int)⟩, ⟨2, .Known (.Primitive .Int)⟩,
       ⟨3, .Known (.Primitive .Int)⟩] ∧
     (visit_expression initial_tc_state
        (.binaryOp .Addition (.lit (.float 1)) (.lit (.float 2)))).varTypeId = 3) := by
  have h1 := visit_binary_op_equations initial_tc_state .Equality
    (.lit (.float 1)) (.lit (.float 2))
  have h2 := visit_binary_op_equations initial_tc_state .LessThan
    (.lit (.float 1)) (.lit (.float 2))
  have h3 := visit_binary_op_equations initial_tc_state .Addition
    (.lit (.float 1)) (.lit (.float 2))
  have g1 := h1.1 (Or.inl rfl)
  have g2 := h2.2.1 (Or.inl rfl)
  have g3 := h3.2.2 (Or.inl rfl)
  refine ⟨⟨?_, ?_⟩, ⟨?_, ?_⟩, ⟨?_, ?_⟩⟩
  · rw [g1.1]
    simp [visit_expression, visit_literal_expr, initial_tc_state,
      TCState.add_equation, TCState.add_source, TCState.fresh_id]
  · rw [g1.2]
    simp [visit_expression, visit_literal_expr, initial_tc_state,
      TCState.add_equation, TCState.add_source, TCState.fresh_id]
  · rw [g2.1]
    simp [visit_expression, visit_literal_expr, initial_tc_state,
      TCState.add_equation, TCState.add_source, TCState.fresh_id]
  · rw [g2.2]
    simp [visit_expression, visit_literal_expr, initial_tc_state,
      TCState.add_equation, TCState.add_source, TCState.fresh_id]
  · rw [g3.1]
    simp [visit_expression, visit_literal_expr, initial_tc_state,
      TCState.add_equation, TCState.add_source, TCState.fresh_id]
  · rw [g3.2]
    simp [visit_expression, visit_literal_expr, initial_tc_state,
      TCState.add_equation, TCState.add_source, TCState.fresh_id]

/-- C10: when the call-site identifier still carries the default (unassigned)
ScopedId, `visit_fn_call` returns immediately: the checker state — equations,
sources, errors, everything — is unchanged and the arguments are not
visited. -/
theorem visit_fn_call_default_id_noop (S : TCState) (ident : Identifier)
    (args : FnCallArgs) (h : ident.id = ScopedId.default) :
    visit_expression S (.fnCall ident args) = S := by
  simp [visit_expression, visit_fn_call, h]

/-- C10 witness. -/
theorem visit_fn_call_default_id_noop_witness :
    visit_expression initial_tc_state
      (.fnCall ⟨"f", [0]⟩ (.singleExpr (.lit (.float 1)))) = initial_tc_state :=
  visit_fn_call_default_id_noop initial_tc_state ⟨"f", [0]⟩
    (.singleExpr (.lit (.float 1))) rfl

/-- C8: a stage with outstanding diagnostics stops the pipeline:
`IdentifyRunner.identify` returns the collected errors instead of a
`CheckRunner` whenever the post-identification error list is non-empty (and
an `ok` result guarantees the list was empty); `CheckRunner.check` returns
the collected errors instead of a `CheckedUnit` whenever the
post-concretification error list is non-empty (and an `ok` result guarantees
it was empty), so code generation is never reached with diagnostics. -/
theorem pipeline_stops_on_errors (r : IdentifyRunner) (c : CheckRunner) :
    (identifyErrors r ≠ [] →
      IdentifyRunner.identify r = Except.error (identifyErrors r)) ∧
    (∀ cr, IdentifyRunner.identify r = Except.ok cr → identifyErrors r = []) ∧
    (checkErrors c ≠ [] →
      CheckRunner.check c = Except.error (checkErrors c)) ∧
    (∀ cu, CheckRunner.check c = Except.ok cu → checkErrors c = []) := by
  refine ⟨?_, ?_, ?_, ?_⟩
  · intro h
    unfold IdentifyRunner.identify
    rw [if_neg]
    · rfl
    · simpa [List.isEmpty_iff, identifyErrors] using h
  · intro cr hok
    simp only [IdentifyRunner.identify] at hok
    split at hok
    · unfold identifyErrors
      exact List.isEmpty_iff.1 (by assumption)
    · cases hok
  · intro h
    unfold CheckRunner.check
    rw [if_neg]
    · rfl
    · simpa [List.isEmpty_iff, checkErrors] using h
  · intro cu hok
    simp only [CheckRunner.check] at hok
    split at hok
    · unfold checkErrors
      exact List.isEmpty_iff.1 (by assumption)
    · cases hok

/-- C8 witness: a runner whose identification stage holds one diagnostic is
stopped with exactly that list; same for the check stage. -/
theorem pipeline_stops_on_errors_witness :
    IdentifyRunner.identify
      { unit := ⟨[]⟩, errors := [⟨"t", [], "boom"⟩], name_builder := [[]],
        graph := [] } =
      Except.error [⟨"t", [], "boom"⟩] ∧
    CheckRunner.check { unit := ⟨[]⟩, errors := [⟨"t", [], "boom"⟩], graph := [] } =
      Except.error [⟨"t", [], "boom"⟩] := by
  constructor
  · have h := (pipeline_stops_on_errors
      { unit := ⟨[]⟩, errors := [⟨"t", [], "boom"⟩], name_builder := [[]],
        graph := [] }
      { unit := ⟨[]⟩, errors := [], graph := [] }).1
    have he : identifyErrors
        { unit := ⟨[]⟩, errors := [⟨"t", [], "boom"⟩], name_builder := [[]],
          graph := [] } = [⟨"t", [], "boom"⟩] := by decide
    rw [← he]
    exact h (by rw [he]; simp)
  · have h := (pipeline_stops_on_errors
      { unit := ⟨[]⟩, errors := [], name_builder := [[]], graph := [] }
      { unit := ⟨[]⟩, errors := [⟨"t", [], "boom"⟩], graph := [] }).2.2.1
    have he : checkErrors
        { unit := ⟨[]⟩, errors := [⟨"t", [], "boom"⟩], graph := [] } =
        [⟨"t", [], "boom"⟩] := by decide
    rw [← he]
    exact h (by rw [he]; simp)

end Protosnirk
